import Mathlib

/-!
Verification development for the `amethyst_nphysics` backend: a shallow
embedding of the object-lifecycle core (generational slot storage, shape
dependency tracking, deferred garbage collection, joint state machine,
contact watch-list, event translation) together with theorems settling the
specification claims against it.
-/

set_option linter.unusedVariables false

/-- Opaque handle into the generational slot storage: a slot index paired
with a generation counter (the crate's `generational_arena::Index`, exposed
as `StoreKey` by `storage.rs`). -/
structure StoreKey where
  index : Nat
  generation : Nat
deriving DecidableEq, Repr

/-- One slot of the generational arena: its current generation counter and
the stored value, `none` when the slot is free. -/
structure Slot (T : Type) where
  gen : Nat
  value : Option T

/-- Modelled from the spec: the generational slot arena backing
`Storage<T>` (`storage.rs` delegates `insert`/`get`/`has`/`remove` to the
external `generational_arena` crate, which is not part of this repository).
Per spec section 3: a handle is valid iff the slot's current generation
equals the handle's generation; removing a slot bumps its generation and
frees the index for reuse. -/
structure Storage (T : Type) where
  slots : List (Slot T)

/-- Modelled from the spec: generation-checked lookup. Valid iff the slot
exists, its current generation equals the handle's generation, and the slot
is occupied. -/
def Storage.get (s : Storage T) (k : StoreKey) : Option T :=
  match s.slots[k.index]? with
  | some sl => if sl.gen = k.generation then sl.value else none
  | none => none

/-- Translation of `Storage::has`: true if the key is associated to a live
object (the arena's `contains`). -/
def Storage.has (s : Storage T) (k : StoreKey) : Bool :=
  (s.get k).isSome

/-- Modelled from the spec: removing a valid handle empties the slot and
bumps its generation, invalidating all outstanding handles to that slot and
freeing the index for reuse. Returns the removed object, `none` if nothing
was removed. -/
def Storage.remove (s : Storage T) (k : StoreKey) : Option T × Storage T :=
  match s.slots[k.index]? with
  | some sl =>
    if sl.gen = k.generation then
      match sl.value with
      | some v => (some v, ⟨s.slots.set k.index ⟨sl.gen + 1, none⟩⟩)
      | none => (none, s)
    else (none, s)
  | none => (none, s)

/-- Index of the first free slot, if any. -/
def firstFreeIdx : List (Slot T) → Option Nat
  | [] => none
  | sl :: rest =>
    if sl.value.isNone then some 0 else (firstFreeIdx rest).map (· + 1)

/-- Modelled from the spec: `insert` takes ownership of the object and
returns an opaque id; a freed index is reused (keeping the slot's bumped
generation, so the new handle never aliases an old one), otherwise the
table grows. -/
def Storage.insert (s : Storage T) (v : T) : StoreKey × Storage T :=
  match firstFreeIdx s.slots with
  | some i =>
    let g := ((s.slots[i]?).map (·.gen)).getD 0
    (⟨i, g⟩, ⟨s.slots.set i ⟨g, some v⟩⟩)
  | none => (⟨s.slots.length, 0⟩, ⟨s.slots ++ [⟨0, some v⟩]⟩)

/-- Overwriting the object held by a valid handle (the effect of mutating
through the `StorageGuard` returned by `Storage::get`). A stale handle
writes nothing. -/
def Storage.setValue (s : Storage T) (k : StoreKey) (v : T) : Storage T :=
  match s.slots[k.index]? with
  | some sl =>
    if sl.gen = k.generation then
      match sl.value with
      | some _ => ⟨s.slots.set k.index ⟨sl.gen, some v⟩⟩
      | none => s
    else s
  | none => s

/-- Folding a sequence of insertions into the storage. -/
def Storage.insertAll (s : Storage T) (vs : List T) : Storage T :=
  vs.foldl (fun st v => (st.insert v).2) s

/-- A key is stale in a state when its slot exists but has outrun the key's
generation. This is the invariant that survives any later insertions. -/
def StaleAt (st : Storage T) (k : StoreKey) : Prop :=
  ∃ sl, st.slots[k.index]? = some sl ∧ k.generation < sl.gen

theorem firstFreeIdx_lt {T : Type} :
    ∀ (l : List (Slot T)) (i : Nat), firstFreeIdx l = some i → i < l.length := by
  intro l
  induction l with
  | nil => intro i h; simp [firstFreeIdx] at h
  | cons sl rest ih =>
    intro i h
    simp only [List.length_cons]
    by_cases hv : sl.value.isNone
    · simp [firstFreeIdx, hv] at h
      omega
    · simp [firstFreeIdx, hv] at h
      obtain ⟨j, hj, hji⟩ := h
      have := ih j hj
      omega

theorem staleAt_get_none {T : Type} {st : Storage T} {k : StoreKey}
    (h : StaleAt st k) : st.get k = none := by
  obtain ⟨sl, hsl, hgen⟩ := h
  unfold Storage.get
  rw [hsl]
  have : ¬ sl.gen = k.generation := by omega
  simp [this]

theorem staleAt_insert {T : Type} {st : Storage T} {k : StoreKey}
    (h : StaleAt st k) (v : T) : StaleAt (st.insert v).2 k := by
  obtain ⟨sl, hsl, hgen⟩ := h
  have hk : k.index < st.slots.length := by
    by_contra hge
    rw [List.getElem?_eq_none (by omega)] at hsl
    exact Option.noConfusion hsl
  unfold Storage.insert
  cases hff : firstFreeIdx st.slots with
  | some i =>
    have hi : i < st.slots.length := firstFreeIdx_lt _ _ hff
    obtain ⟨sli, hsli⟩ : ∃ sli, st.slots[i]? = some sli := by
      exact ⟨st.slots[i], List.getElem?_eq_getElem hi⟩
    simp only [hsli]
    by_cases hik : i = k.index
    · subst hik
      refine ⟨⟨sli.gen, some v⟩, ?_, ?_⟩
      · simp [List.getElem?_set_self, hi]
      · have : sli = sl := by rw [hsli] at hsl; exact Option.some.inj hsl
        subst this
        simpa using hgen
    · refine ⟨sl, ?_, hgen⟩
      simpa [List.getElem?_set_ne hik] using hsl
  | none =>
    refine ⟨sl, ?_, hgen⟩
    simpa [List.getElem?_append_left hk] using hsl

theorem staleAt_insertAll {T : Type} {st : Storage T} {k : StoreKey}
    (h : StaleAt st k) (vs : List T) : StaleAt (st.insertAll vs) k := by
  induction vs generalizing st with
  | nil => simpa [Storage.insertAll] using h
  | cons v vs ih =>
    have h1 := staleAt_insert h v
    simpa [Storage.insertAll] using ih h1

theorem remove_success_elim {T : Type} {st : Storage T} {k : StoreKey} {v : T}
    (h : (st.remove k).1 = some v) :
    ∃ sl, st.slots[k.index]? = some sl ∧ sl.gen = k.generation ∧
      sl.value = some v := by
  unfold Storage.remove at h
  split at h
  next sl hsl =>
    split at h
    next hg =>
      split at h
      next w hv =>
        have h' : some w = some v := h
        exact ⟨sl, hsl, hg, hv.trans (by rw [Option.some.inj h'])⟩
      next hv => exact absurd h (by simp)
    next hg => exact absurd h (by simp)
  next hsl => exact absurd h (by simp)

theorem remove_staleAt {T : Type} {st : Storage T} {k : StoreKey} {v : T}
    (h : (st.remove k).1 = some v) : StaleAt (st.remove k).2 k := by
  obtain ⟨sl, hsl, hg, hv⟩ := remove_success_elim h
  have hk : k.index < st.slots.length := by
    by_contra hge
    rw [List.getElem?_eq_none (by omega)] at hsl
    exact Option.noConfusion hsl
  refine ⟨⟨sl.gen + 1, none⟩, ?_, by show k.generation < sl.gen + 1; omega⟩
  simp [Storage.remove, hsl, hg, hv, List.getElem?_set_self, hk]

/-- C3: after `Storage::remove(h)` succeeds, `get(h)` returns nothing and
`has(h)` is false, even after any sequence of subsequent insertions reuses
the freed slot index: every later insert hands out a handle carrying the
slot's bumped generation, so `h` never aliases the new object. -/
theorem storage_remove_get_none_after_reuse {T : Type} (st : Storage T)
    (k : StoreKey) (v : T) (vs : List T)
    (h : (st.remove k).1 = some v) :
    ((st.remove k).2.insertAll vs).get k = none ∧
      ((st.remove k).2.insertAll vs).has k = false := by
  have h1 : StaleAt ((st.remove k).2.insertAll vs) k :=
    staleAt_insertAll (remove_staleAt h) vs
  have h2 := staleAt_get_none h1
  exact ⟨h2, by simp [Storage.has, h2]⟩

/-- Witness for C3: a one-slot storage holding `0`; removing the handle and
then inserting two fresh objects (the first reuses slot 0) still leaves the
original handle unresolvable. -/
theorem storage_remove_get_none_after_reuse_witness :
    ((Storage.remove ⟨[⟨0, some 0⟩]⟩ ⟨0, 0⟩).1 = some 0) ∧
      (((Storage.remove (T := Nat) ⟨[⟨0, some 0⟩]⟩ ⟨0, 0⟩).2.insertAll
          [7, 8]).get ⟨0, 0⟩ = none ∧
        ((Storage.remove (T := Nat) ⟨[⟨0, some 0⟩]⟩ ⟨0, 0⟩).2.insertAll
          [7, 8]).has ⟨0, 0⟩ = false) :=
  ⟨rfl, storage_remove_get_none_after_reuse ⟨[⟨0, some 0⟩]⟩ ⟨0, 0⟩ 0 [7, 8] rfl⟩

/-- Shape descriptor enumerated by the external interface (`ShapeDesc` in
the engine-facing API); `G` is the isometry type for compound offsets,
generic like the servers' `N: PtReal`. -/
inductive ShapeDesc (G : Type) : Type
  | sphere (radius : Int)
  | cube (halfExtents : Int × Int × Int)
  | capsule (halfHeight radius : Int)
  | cylinder (halfHeight radius : Int)
  | plane
  | convex (points : List (Int × Int × Int))
  | triMesh (points : List (Int × Int × Int)) (indices : List (Nat × Nat × Nat))
  | compound (children : List (G × ShapeDesc G))

/-- Translation of `RigidShape` (`shape.rs`): the immutable geometric
descriptor, the set of attached body keys, and the deferred-drop mark. The
derived ncollide shape handle is geometric data outside this model; the
collider descriptor below carries the descriptor in its place. -/
structure RigidShape (G : Type) where
  selfKey : Option StoreKey
  shapeDesc : ShapeDesc G
  bodies : List StoreKey
  markedForDrop : Bool

/-- Translation of `RigidShape::register_body`. -/
def RigidShape.registerBody {G : Type} (s : RigidShape G) (body : StoreKey) :
    RigidShape G :=
  { s with bodies := s.bodies ++ [body] }

/-- Translation of `RigidShape::unregister_body` (`retain` of the keys
different from `body`). -/
def RigidShape.unregisterBody {G : Type} (s : RigidShape G) (body : StoreKey) :
    RigidShape G :=
  { s with bodies := s.bodies.filter (fun b => b ≠ body) }

/-- Translation of `RigidShape::is_concave`: true exactly for `TriMesh`. -/
def RigidShape.isConcave {G : Type} (s : RigidShape G) : Bool :=
  match s.shapeDesc with
  | .triMesh _ _ => true
  | _ => false

/-- Translation of `ShapeNpServer::has_dependency`: returns true when the
shape resolves and its attached-body list is empty (note: the function's
own doc comment says it returns true if the shape is still in use). -/
def ShapeNpServer.hasDependency {G : Type} (shapes : Storage (RigidShape G))
    (shapeKey : StoreKey) : Bool :=
  match shapes.get shapeKey with
  | some shape => shape.bodies.isEmpty
  | none => false

/-- Translation of `ShapeNpServer::drop_shape`: when not safe to drop, mark
the shape for drop (if not yet marked) and return false; otherwise remove
it from storage and return true. -/
def ShapeNpServer.dropShape {G : Type} (shapes : Storage (RigidShape G))
    (shapeKey : StoreKey) : Bool × Storage (RigidShape G) :=
  let safeToDrop := !(ShapeNpServer.hasDependency shapes shapeKey)
  if !safeToDrop then
    match shapes.get shapeKey with
    | some shape =>
      if !shape.markedForDrop then
        (false, shapes.setValue shapeKey { shape with markedForDrop := true })
      else
        (false, shapes)
    | none => (false, shapes)
  else
    (true, (shapes.remove shapeKey).2)

/-- Translation of the shape section of `WorldNpServer::garbage_collect`:
drain the pending-shape queue through `drop_shape`, collect the tags whose
drop returned true, and prune the queue only under the code's
`removed_shape.is_empty()` guard. Returns the new queue and storage. -/
def WorldNpServer.gcDrainShapes {G : Type} (gcShapes : List StoreKey)
    (shapes : Storage (RigidShape G)) : List StoreKey × Storage (RigidShape G) :=
  let folded := gcShapes.foldl
    (fun (acc : List StoreKey × Storage (RigidShape G)) s =>
      let r := ShapeNpServer.dropShape acc.2 s
      (if r.1 then acc.1 ++ [s] else acc.1, r.2))
    ([], shapes)
  let removedShape := folded.1
  let gcShapes' :=
    if removedShape.isEmpty then
      gcShapes.filter (fun s => !(removedShape.contains s))
    else gcShapes
  (gcShapes', folded.2)

/-- A one-shape storage whose shape has one attached body: the dependency
case of C1/C2. -/
def shapeStoreAttached : Storage (RigidShape Int) :=
  ⟨[⟨0, some ⟨some ⟨0, 0⟩, .sphere 1, [⟨4, 0⟩], false⟩⟩]⟩

/-- A one-shape storage whose shape has no attached body. -/
def shapeStoreFree : Storage (RigidShape Int) :=
  ⟨[⟨0, some ⟨some ⟨0, 0⟩, .sphere 1, [], false⟩⟩]⟩

/-- C1: evaluation at the failing input. `has_dependency` tests emptiness
the wrong way round, so `drop_shape` on a shape with one attached body
reports true (has_dependency false) and removes the shape from storage,
while a shape with an empty attached-body set is reported as still in use,
marked for drop, and never removed. This contradicts the claim and the
function's own doc comment. -/
theorem drop_shape_dependency_inverted :
    ShapeNpServer.hasDependency shapeStoreAttached ⟨0, 0⟩ = false ∧
    (ShapeNpServer.dropShape shapeStoreAttached ⟨0, 0⟩).1 = true ∧
    (ShapeNpServer.dropShape shapeStoreAttached ⟨0, 0⟩).2.get ⟨0, 0⟩ = none ∧
    ShapeNpServer.hasDependency shapeStoreFree ⟨0, 0⟩ = true ∧
    (ShapeNpServer.dropShape shapeStoreFree ⟨0, 0⟩).1 = false ∧
    ((ShapeNpServer.dropShape shapeStoreFree ⟨0, 0⟩).2.get ⟨0, 0⟩).map
      (·.markedForDrop) = some true :=
  ⟨rfl, rfl, rfl, rfl, rfl, rfl⟩

/-- C2: evaluation at the failing input. The per-step drain's pruning of
the pending-shape queue runs under the inverted guard
`if removed_shape.is_empty()`, so a shape whose `drop_shape` returned true
is NOT removed from `gc.shapes`: the queue still contains it after the
drain even though it was dropped from storage. -/
theorem garbage_collect_keeps_dropped_shape_in_queue :
    (ShapeNpServer.dropShape shapeStoreAttached ⟨0, 0⟩).1 = true ∧
    (WorldNpServer.gcDrainShapes [⟨0, 0⟩] shapeStoreAttached).1 = [⟨0, 0⟩] ∧
    (WorldNpServer.gcDrainShapes [⟨0, 0⟩] shapeStoreAttached).2.get ⟨0, 0⟩
      = none :=
  ⟨rfl, rfl, rfl⟩

/-- Kind tag recorded in a collider's user data (`utils.rs`). -/
inductive ObjectType
  | rigidBody
  | area
deriving DecidableEq, Repr

/-- Translation of `UserData` (`utils.rs`): the owning object's kind, store
key and external entity reference (entities are opaque pass-through values,
modelled as naturals). -/
structure UserData where
  objectType : ObjectType
  storeKey : StoreKey
  entity : Option Nat
deriving DecidableEq, Repr

/-- Engine-facing overlap event (`OverlapEvent` in the external API),
carrying the other side's tag and entity. -/
inductive OverlapEvent
  | enter (tag : StoreKey) (entity : Option Nat)
  | exit (tag : StoreKey) (entity : Option Nat)
deriving DecidableEq, Repr

/-- Translation of ncollide's `CollisionGroups` as carried around by the
servers: membership, whitelist and blacklist group id lists. -/
structure NpCollisionGroups where
  membership : List Nat
  whitelist : List Nat
  blacklist : List Nat
deriving DecidableEq, Repr

/-- The group-id bound used by `collision_group_conversor::from_nphysics`
(ncollide's `CollisionGroups::max_group_id()`). -/
def maxGroupId : Nat := 29

/-- Translation of `collision_group_conversor::from_nphysics`: collect the
group ids below the bound that are members / whitelisted. -/
def collisionGroupConversor.fromNphysics (groups : NpCollisionGroups) :
    List Nat × List Nat :=
  ((List.range maxGroupId).filter (fun g => groups.membership.contains g),
   (List.range maxGroupId).filter (fun g => groups.whitelist.contains g))

/-- Per-kind extra body state (`BodyData` in `body.rs`): a rigid body's
contact-report counter and accumulated contact list (contact payloads are
opaque here), or an area's pending overlap-event list. -/
inductive BodyData
  | rigid (contactsToReport : Nat) (contacts : List Nat)
  | area (overlapEvents : List OverlapEvent)
deriving DecidableEq, Repr

/-- Translation of `Body` (`body.rs`). The engine-native `np_body` is
represented by the state the servers read and write through it: its
isometry (`transform`, generic in `G` like the servers in `N: PtReal`) and
its activation flag; `material_handle` is an opaque shared handle. -/
structure Body (G : Type) where
  selfKey : Option StoreKey
  transform : G
  active : Bool
  bodyData : BodyData
  colliderKey : Option StoreKey
  shapeKey : Option StoreKey
  entity : Option Nat
  materialHandle : Nat
  npCollisionGroups : NpCollisionGroups

/-- Translation of `Body::activate` (`np_body.activate()`): wake the body. -/
def Body.activate {G : Type} (b : Body G) : Body G :=
  { b with active := true }

/-- Translation of `BodyStorage` (`body_storage.rs`): the slot storage plus
the removal-event list drained by the engine through `pop_removal_event`. -/
structure BodyStorage (G : Type) where
  storage : Storage (Body G)
  removed : List StoreKey

/-- Translation of `BodyStorage::insert_body`. -/
def BodyStorage.insertBody {G : Type} (bs : BodyStorage G) (body : Body G) :
    StoreKey × BodyStorage G :=
  let r := bs.storage.insert body
  (r.1, { bs with storage := r.2 })

/-- Translation of `BodyStorage::drop_body`: remove from storage and push
the key onto the removal-event list, unconditionally. -/
def BodyStorage.dropBody {G : Type} (bs : BodyStorage G) (key : StoreKey) :
    BodyStorage G :=
  { storage := (bs.storage.remove key).2, removed := bs.removed ++ [key] }

/-- Translation of `BodyStorage::get_body`. -/
def BodyStorage.getBody {G : Type} (bs : BodyStorage G) (key : StoreKey) :
    Option (Body G) :=
  bs.storage.get key

/-- Overwriting a body through the storage guard. -/
def BodyStorage.setBody {G : Type} (bs : BodyStorage G) (key : StoreKey)
    (body : Body G) : BodyStorage G :=
  { bs with storage := bs.storage.setValue key body }

/-- Translation of `BodyStorage::pop_removal_event` (`Vec::pop`: last in,
first out). -/
def BodyStorage.popRemovalEvent {G : Type} (bs : BodyStorage G) :
    Option StoreKey × BodyStorage G :=
  match bs.removed.getLast? with
  | some k => (some k, { bs with removed := bs.removed.dropLast })
  | none => (none, bs)

theorem storage_remove_of_get_none {T : Type} {st : Storage T} {k : StoreKey}
    (h : st.get k = none) : (st.remove k).2 = st := by
  unfold Storage.get at h
  unfold Storage.remove
  split
  next sl hsl =>
    rw [hsl] at h
    dsimp only at h
    by_cases hg : sl.gen = k.generation
    · rw [if_pos hg] at h
      rw [if_pos hg, h]
    · rw [if_neg hg]
  next hsl => rfl

/-- C10: `BodyStorage::drop_body(k)` appends `k` to the removal-event list
even when `k` does not resolve to a live body, dropping the same key twice
appends two events, and `pop_removal_event` then yields a key that was
never present (the storage still does not resolve it). -/
theorem drop_body_appends_removal_event_unconditionally {G : Type}
    (bs : BodyStorage G) (k : StoreKey) (h : bs.storage.get k = none) :
    (bs.dropBody k).removed = bs.removed ++ [k] ∧
    ((bs.dropBody k).dropBody k).removed = bs.removed ++ [k, k] ∧
    (bs.dropBody k).popRemovalEvent.1 = some k ∧
    (bs.dropBody k).storage.get k = none := by
  refine ⟨rfl, by simp [BodyStorage.dropBody], ?_, ?_⟩
  · simp [BodyStorage.dropBody, BodyStorage.popRemovalEvent]
  · simp [BodyStorage.dropBody, storage_remove_of_get_none h, h]

/-- Witness for C10: dropping a never-inserted key in an empty body storage
still produces a removal event for it. -/
theorem drop_body_appends_removal_event_unconditionally_witness :
    ((BodyStorage.mk (G := Int) ⟨[]⟩ []).storage.get ⟨0, 0⟩ = none) ∧
    ((BodyStorage.mk (G := Int) ⟨[]⟩ []).dropBody ⟨0, 0⟩).removed = [⟨0, 0⟩] ∧
    ((BodyStorage.mk (G := Int) ⟨[]⟩ []).dropBody ⟨0, 0⟩).popRemovalEvent.1
      = some ⟨0, 0⟩ := by
  have h := drop_body_appends_removal_event_unconditionally
    (BodyStorage.mk (G := Int) ⟨[]⟩ []) ⟨0, 0⟩ rfl
  exact ⟨rfl, h.1, h.2.2.1⟩

/-- Translation of `RBodyNpServer::transform`: the body's isometry, or the
identity isometry (`ident`) when the tag does not resolve. -/
def RBodyNpServer.transform {G : Type} (ident : G) (bodies : BodyStorage G)
    (bodyKey : StoreKey) : G :=
  match bodies.getBody bodyKey with
  | some body => body.transform
  | none => ident

/-- Translation of `RBodyNpServer::shape`: the attached shape tag, if any. -/
def RBodyNpServer.shape {G : Type} (bodies : BodyStorage G)
    (bodyKey : StoreKey) : Option StoreKey :=
  match bodies.getBody bodyKey with
  | some body => body.shapeKey
  | none => none

/-- Translation of `RBodyNpServer::entity`. -/
def RBodyNpServer.entity {G : Type} (bodies : BodyStorage G)
    (bodyKey : StoreKey) : Option Nat :=
  match bodies.getBody bodyKey with
  | some body => body.entity
  | none => none

/-- Translation of `RBodyNpServer::belong_to`. -/
def RBodyNpServer.belongTo {G : Type} (bodies : BodyStorage G)
    (bodyKey : StoreKey) : List Nat :=
  match bodies.getBody bodyKey with
  | some body => (collisionGroupConversor.fromNphysics body.npCollisionGroups).1
  | none => []

/-- Translation of `RBodyNpServer::collide_with`. -/
def RBodyNpServer.collideWith {G : Type} (bodies : BodyStorage G)
    (bodyKey : StoreKey) : List Nat :=
  match bodies.getBody bodyKey with
  | some body => (collisionGroupConversor.fromNphysics body.npCollisionGroups).2
  | none => []

/-- Translation of `AreaNpServer::overlap_events`: the area's pending
event list, or an empty list when the tag does not resolve (or the body is
not an area). -/
def AreaNpServer.overlapEvents {G : Type} (bodies : BodyStorage G)
    (areaKey : StoreKey) : List OverlapEvent :=
  match bodies.getBody areaKey with
  | some area =>
    match area.bodyData with
    | .area e => e
    | _ => []
  | none => []

/-- C9: a tag that no longer resolves to a live object makes every read
operation return its safe default, without panicking: identity transform,
`none` for shape and entity, and empty lists for the collision groups and
the overlap events. -/
theorem stale_tag_reads_return_safe_defaults {G : Type} (ident : G)
    (bodies : BodyStorage G) (k : StoreKey) (h : bodies.getBody k = none) :
    RBodyNpServer.transform ident bodies k = ident ∧
    RBodyNpServer.shape bodies k = none ∧
    RBodyNpServer.entity bodies k = none ∧
    RBodyNpServer.belongTo bodies k = [] ∧
    RBodyNpServer.collideWith bodies k = [] ∧
    AreaNpServer.overlapEvents bodies k = [] := by
  refine ⟨?_, ?_, ?_, ?_, ?_, ?_⟩ <;>
    simp [RBodyNpServer.transform, RBodyNpServer.shape, RBodyNpServer.entity,
      RBodyNpServer.belongTo, RBodyNpServer.collideWith,
      AreaNpServer.overlapEvents, h]

/-- Witness for C9: an empty body storage resolves no tag; all reads give
their defaults. -/
theorem stale_tag_reads_return_safe_defaults_witness :
    (BodyStorage.mk (G := Int) ⟨[]⟩ []).getBody ⟨3, 1⟩ = none ∧
    (RBodyNpServer.transform 0 (BodyStorage.mk (G := Int) ⟨[]⟩ []) ⟨3, 1⟩ = 0 ∧
      AreaNpServer.overlapEvents (BodyStorage.mk (G := Int) ⟨[]⟩ []) ⟨3, 1⟩
        = []) :=
  ⟨rfl,
    (stale_tag_reads_return_safe_defaults 0 (BodyStorage.mk ⟨[]⟩ []) ⟨3, 1⟩
        rfl).1,
    (stale_tag_reads_return_safe_defaults 0 (BodyStorage.mk (G := Int) ⟨[]⟩ [])
        ⟨3, 1⟩ rfl).2.2.2.2.2⟩

/-- Translation of nphysics' `ColliderDesc` as configured by the servers:
the shape geometry (represented by its descriptor), density, sensor flag,
material handle (none meaning the engine default) and collision groups. -/
structure NpColliderDesc (G : Type) where
  shape : ShapeDesc G
  density : Int
  sensor : Bool
  material : Option Nat
  collisionGroups : NpCollisionGroups

/-- Defaults of `NpColliderDesc::new(shape)`: zero density, not a sensor,
default material, default collision groups (member of and colliding with
every group). -/
def NpColliderDesc.new {G : Type} (shape : ShapeDesc G) : NpColliderDesc G :=
  { shape := shape, density := 0, sensor := false, material := none,
    collisionGroups :=
      ⟨List.range maxGroupId, List.range maxGroupId, []⟩ }

/-- Translation of `RBodyNpServer::create_collider_desc`: the body's
collision groups and shared material handle, with density zero for concave
(TriMesh) geometry and one otherwise. -/
def RBodyNpServer.createColliderDesc {G : Type} (body : Body G)
    (shape : RigidShape G) : NpColliderDesc G :=
  let desc := { NpColliderDesc.new shape.shapeDesc with
    collisionGroups := body.npCollisionGroups,
    material := some body.materialHandle }
  if shape.isConcave then { desc with density := 0 }
  else { desc with density := 1 }

/-- Translation of `AreaNpServer::create_collider_desc`: the body's
collision groups, zero density, sensor mode. -/
def AreaNpServer.createColliderDesc {G : Type} (body : Body G)
    (shape : RigidShape G) : NpColliderDesc G :=
  { NpColliderDesc.new shape.shapeDesc with
    collisionGroups := body.npCollisionGroups,
    density := 0,
    sensor := true }

/-- C8: every collider descriptor built for an area has density zero and
sensor mode set; every one built for a rigid body has density zero exactly
when the shape is concave (a TriMesh descriptor) and one otherwise, and
carries the body's material handle and collision groups. -/
theorem collider_desc_density_material_groups {G : Type} (body : Body G)
    (shape : RigidShape G) :
    (AreaNpServer.createColliderDesc body shape).density = 0 ∧
    (AreaNpServer.createColliderDesc body shape).sensor = true ∧
    (AreaNpServer.createColliderDesc body shape).collisionGroups
      = body.npCollisionGroups ∧
    (RBodyNpServer.createColliderDesc body shape).density
      = (if shape.isConcave then 0 else 1) ∧
    (RBodyNpServer.createColliderDesc body shape).material
      = some body.materialHandle ∧
    (RBodyNpServer.createColliderDesc body shape).collisionGroups
      = body.npCollisionGroups := by
  refine ⟨rfl, rfl, rfl, ?_, ?_, ?_⟩ <;>
    · unfold RBodyNpServer.createColliderDesc
      by_cases hc : shape.isConcave <;> simp [hc]

/-- Derived ordering of `generational_arena::Index`: slot index first, then
generation. -/
def StoreKey.cmp (a b : StoreKey) : Ordering :=
  match compare a.index b.index with
  | .eq => compare a.generation b.generation
  | o => o

/-- Loop of Rust's slice `binary_search` (the era's std implementation:
narrow `[base, base+size)` by halving `size`; the first argument bounds the
iteration count, and the loop halves `size` each pass so `size` itself is a
sufficient bound). Returns the final `base`. -/
def binarySearchGo (l : List StoreKey) (t : StoreKey) :
    Nat → Nat → Nat → Nat
  | 0, base, _ => base
  | fuel + 1, base, size =>
    if 1 < size then
      let half := size / 2
      let mid := base + half
      let c := StoreKey.cmp (l.getD mid ⟨0, 0⟩) t
      binarySearchGo l t fuel (if c = .gt then base else mid) (size - half)
    else base

/-- Rust's slice `binary_search`: `Except.ok i` when the element compares
equal at the final probe, `Except.error i` with the insertion point
otherwise. On a slice that is not sorted the result is unspecified by its
contract; this is the behaviour the code actually gets. -/
def binarySearch (l : List StoreKey) (t : StoreKey) : Except Nat Nat :=
  if l.length = 0 then .error 0
  else
    let base := binarySearchGo l t l.length 0 l.length
    match StoreKey.cmp (l.getD base ⟨0, 0⟩) t with
    | .eq => .ok base
    | .lt => .error (base + 1)
    | .gt => .error base

/-- Translation of `RBodyNpServer::update_contacts_watcher`: for a rigid
body, binary-search the watch list for the body's key; on a hit remove the
entry when the counter is zero, on a miss push the key (at the end) when
the counter is non-zero. `none` models the `self_key.unwrap()` panic. -/
def RBodyNpServer.updateContactsWatcher {G : Type} (body : Body G)
    (contactsStorage : List StoreKey) : Option (List StoreKey) :=
  match body.bodyData with
  | .rigid contactsToReport _ =>
    match body.selfKey with
    | none => none
    | some k =>
      match binarySearch contactsStorage k with
      | .ok i =>
        if contactsToReport = 0 then some (contactsStorage.eraseIdx i)
        else some contactsStorage
      | .error _ =>
        if contactsToReport ≠ 0 then some (contactsStorage ++ [k])
        else some contactsStorage
  | .area _ => some contactsStorage

/-- Translation of `RBodyNpServer::set_contacts_to_report`: store the new
counter on the body (when rigid) and run the watcher update. Returns the
updated bodies and the updated watch list. -/
def RBodyNpServer.setContactsToReport {G : Type} (bodies : BodyStorage G)
    (watch : List StoreKey) (bodyKey : StoreKey) (count : Nat) :
    BodyStorage G × Option (List StoreKey) :=
  match bodies.getBody bodyKey with
  | none => (bodies, some watch)
  | some body =>
    let body' :=
      match body.bodyData with
      | .rigid _ cs => { body with bodyData := .rigid count cs }
      | _ => body
    (bodies.setBody bodyKey body',
      RBodyNpServer.updateContactsWatcher body' watch)

/-- A rigid body record with a given self key and contact-report count. -/
def mkRigidBody (k : StoreKey) (count : Nat) : Body Int :=
  { selfKey := some k, transform := 0, active := true,
    bodyData := .rigid count [], colliderKey := none, shapeKey := none,
    entity := none, materialHandle := 0, npCollisionGroups := ⟨[], [], []⟩ }

/-- Two rigid bodies in slots 0 and 1, contact counters zero. -/
def watchScenarioBodies : BodyStorage Int :=
  ⟨⟨[⟨0, some (mkRigidBody ⟨0, 0⟩ 0)⟩, ⟨0, some (mkRigidBody ⟨1, 0⟩ 0)⟩]⟩, []⟩

/-- C4: evaluation at the failing input. Setting body (1,0)'s counter
non-zero and then body (0,0)'s pushes (0,0) at the end of the watch list,
producing the unsorted list [(1,0),(0,0)] (the adjacent pair is strictly
descending); subsequently setting (1,0)'s counter back to zero leaves its
entry in the watch list, because the binary search on the unsorted list
misses it — contradicting the claim that the entry disappears and that the
list is kept sorted. -/
theorem contacts_watcher_unsorted_and_entry_not_removed :
    (RBodyNpServer.setContactsToReport watchScenarioBodies [] ⟨1, 0⟩ 1).2
      = some [⟨1, 0⟩] ∧
    (RBodyNpServer.setContactsToReport
        (RBodyNpServer.setContactsToReport watchScenarioBodies [] ⟨1, 0⟩ 1).1
        [⟨1, 0⟩] ⟨0, 0⟩ 1).2 = some [⟨1, 0⟩, ⟨0, 0⟩] ∧
    StoreKey.cmp ⟨1, 0⟩ ⟨0, 0⟩ = .gt ∧
    (RBodyNpServer.setContactsToReport
        (RBodyNpServer.setContactsToReport
          (RBodyNpServer.setContactsToReport watchScenarioBodies [] ⟨1, 0⟩ 1).1
          [⟨1, 0⟩] ⟨0, 0⟩ 1).1
        [⟨1, 0⟩, ⟨0, 0⟩] ⟨1, 0⟩ 0).2 = some [⟨1, 0⟩, ⟨0, 0⟩] ∧
    ((RBodyNpServer.setContactsToReport
        (RBodyNpServer.setContactsToReport
          (RBodyNpServer.setContactsToReport watchScenarioBodies [] ⟨1, 0⟩ 1).1
          [⟨1, 0⟩] ⟨0, 0⟩ 1).1
        [⟨1, 0⟩, ⟨0, 0⟩] ⟨1, 0⟩ 0).1.getBody ⟨1, 0⟩).map (·.bodyData)
      = some (.rigid 0 []) :=
  ⟨rfl, rfl, rfl, rfl, rfl⟩

/-- Joint descriptor: currently only the fixed kind. -/
inductive JointDesc
  | fixed
deriving DecidableEq, Repr

/-- Translation of the engine-native `FixedConstraint` built by
`update_internal_joint`: the two constrained body part handles (what
`anchors()` reports) and the per-body anchor isometries computed at
materialization time. -/
structure NpJoint (G : Type) where
  part0 : StoreKey × Nat
  part1 : StoreKey × Nat
  anchor0 : G
  anchor1 : G

/-- Translation of `Joint` (`joint.rs` / `joint_physics_server.rs`): the
descriptor, the initial relative placement, the optional materialized
engine constraint and the two optional (body key, part id) slots. -/
structure Joint (G : Type) where
  selfKey : Option StoreKey
  jointDesc : JointDesc
  initialIsometry : G
  npJoint : Option (NpJoint G)
  body0 : Option (StoreKey × Nat)
  body1 : Option (StoreKey × Nat)

/-- Translation of `JointStorage` (`joint_storage.rs`): slot storage plus
the insertion/removal notification queues the engine drains. -/
structure JointStorage (G : Type) where
  storage : Storage (Joint G)
  inserted : List (StoreKey × (StoreKey × Nat) × (StoreKey × Nat))
  removed : List (StoreKey × (StoreKey × Nat) × (StoreKey × Nat))

/-- Translation of `JointStorage::get_joint`. -/
def JointStorage.getJoint {G : Type} (js : JointStorage G) (key : StoreKey) :
    Option (Joint G) :=
  js.storage.get key

/-- Overwriting a joint through the storage guard. -/
def JointStorage.setJoint {G : Type} (js : JointStorage G) (key : StoreKey)
    (j : Joint G) : JointStorage G :=
  { js with storage := js.storage.setValue key j }

/-- Translation of `JointStorage::notify_joint_created`: push an insertion
event carrying the constraint's anchors — only if the stored joint
currently holds an engine constraint. -/
def JointStorage.notifyJointCreated {G : Type} (js : JointStorage G)
    (key : StoreKey) : JointStorage G :=
  match js.getJoint key with
  | some j =>
    match j.npJoint with
    | some nj => { js with inserted := js.inserted ++ [(key, nj.part0, nj.part1)] }
    | none => js
  | none => js

/-- Translation of `JointStorage::notify_joint_removed`: push a removal
event carrying the constraint's anchors — only if the stored joint
currently holds an engine constraint. -/
def JointStorage.notifyJointRemoved {G : Type} (js : JointStorage G)
    (key : StoreKey) : JointStorage G :=
  match js.getJoint key with
  | some j =>
    match j.npJoint with
    | some nj => { js with removed := js.removed ++ [(key, nj.part0, nj.part1)] }
    | none => js
  | none => js

/-- Translation of `RBodyNpServer::active_body`: wake the body if the key
resolves. -/
def RBodyNpServer.activeBody {G : Type} (bodyKey : StoreKey)
    (bodies : BodyStorage G) : BodyStorage G :=
  match bodies.getBody bodyKey with
  | some body => bodies.setBody bodyKey body.activate
  | none => bodies

/-- Translation of `JointNpServer::update_internal_joint`. `ginv`/`gmul`
are the isometry inverse and composition (generic, like the servers in
`N: PtReal`): with a constraint present and a body slot empty the
constraint is dropped and a removal is notified; with no constraint and
both slots filled the constraint is built with anchors
`inverse(body transform) * initial isometry` and an insertion is notified;
a missing body aborts with no notification (`fail_cond!`). -/
def JointNpServer.updateInternalJoint {G : Type} (ginv : G → G)
    (gmul : G → G → G) (jointKey : StoreKey) (joints : JointStorage G)
    (bodies : BodyStorage G) : JointStorage G :=
  let r : JointStorage G × Bool × Bool :=
    match joints.getJoint jointKey with
    | some joint =>
      if joint.npJoint.isSome then
        if joint.body0.isNone || joint.body1.isNone then
          (joints.setJoint jointKey { joint with npJoint := none }, false, true)
        else (joints, false, false)
      else
        match joint.body0, joint.body1 with
        | some b0, some b1 =>
          match bodies.getBody b0.1, bodies.getBody b1.1 with
          | some body0, some body1 =>
            let anchor0 := gmul (ginv body0.transform) joint.initialIsometry
            let anchor1 := gmul (ginv body1.transform) joint.initialIsometry
            match joint.jointDesc with
            | .fixed =>
              (joints.setJoint jointKey
                { joint with npJoint := some ⟨b0, b1, anchor0, anchor1⟩ },
                true, false)
          | _, _ => (joints, false, false)
        | _, _ => (joints, false, false)
    | none => (joints, false, false)
  if r.2.1 then r.1.notifyJointCreated jointKey
  else if r.2.2 then r.1.notifyJointRemoved jointKey
  else r.1

/-- Translation of `JointNpServer::insert_rigid_body`: fill the first
empty body slot and refresh the internal joint; when both slots are already
filled, log an error and return immediately, leaving everything unchanged
(the returned flag records that error path). -/
def JointNpServer.insertRigidBody {G : Type} (ginv : G → G)
    (gmul : G → G → G) (joints : JointStorage G) (bodies : BodyStorage G)
    (jointKey bodyKey : StoreKey) : JointStorage G × Bool :=
  match joints.getJoint jointKey with
  | some joint =>
    if joint.body0.isNone then
      (JointNpServer.updateInternalJoint ginv gmul jointKey
        (joints.setJoint jointKey { joint with body0 := some (bodyKey, 0) })
        bodies, false)
    else if joint.body1.isNone then
      (JointNpServer.updateInternalJoint ginv gmul jointKey
        (joints.setJoint jointKey { joint with body1 := some (bodyKey, 0) })
        bodies, false)
    else
      (joints, true)
  | none =>
    (JointNpServer.updateInternalJoint ginv gmul jointKey joints bodies, false)

/-- Translation of `JointNpServer::remove_rigid_body`: wake both currently
constrained bodies, empty the slot holding the given body key (logging an
error if neither slot holds it), then refresh the internal joint. -/
def JointNpServer.removeRigidBody {G : Type} (ginv : G → G)
    (gmul : G → G → G) (joints : JointStorage G) (bodies : BodyStorage G)
    (jointKey bodyKey : StoreKey) : JointStorage G × BodyStorage G :=
  let r : JointStorage G × BodyStorage G :=
    match joints.getJoint jointKey with
    | some joint =>
      let bodies1 :=
        match joint.body0 with
        | some b0 => RBodyNpServer.activeBody b0.1 bodies
        | none => bodies
      let bodies2 :=
        match joint.body1 with
        | some b1 => RBodyNpServer.activeBody b1.1 bodies1
        | none => bodies1
      let joints1 :=
        if joint.body0.map (·.1) = some bodyKey then
          joints.setJoint jointKey { joint with body0 := none }
        else if joint.body1.map (·.1) = some bodyKey then
          joints.setJoint jointKey { joint with body1 := none }
        else joints
      (joints1, bodies2)
    | none => (joints, bodies)
  (JointNpServer.updateInternalJoint ginv gmul jointKey r.1 r.2, r.2)

/-- C5: inserting a third body into a joint whose two body slots are both
filled is rejected with an error and returns the joint storage exactly
unchanged (so `body_0`, `body_1` and `np_joint` are untouched);
`update_internal_joint` is not even reached. -/
theorem joint_insert_third_body_rejected {G : Type} (ginv : G → G)
    (gmul : G → G → G) (joints : JointStorage G) (bodies : BodyStorage G)
    (jointKey bodyKey : StoreKey) (j : Joint G)
    (hj : joints.getJoint jointKey = some j)
    (h0 : j.body0.isSome) (h1 : j.body1.isSome) :
    JointNpServer.insertRigidBody ginv gmul joints bodies jointKey bodyKey
      = (joints, true) := by
  unfold JointNpServer.insertRigidBody
  rw [hj]
  have h0' : j.body0.isNone = false := by
    cases hb : j.body0 <;> simp [hb] at h0 ⊢
  have h1' : j.body1.isNone = false := by
    cases hb : j.body1 <;> simp [hb] at h1 ⊢
  simp [h0', h1']

/-- A materialized joint: both slots filled, engine constraint present. -/
def materializedJoint : Joint Int :=
  { selfKey := some ⟨0, 0⟩, jointDesc := .fixed, initialIsometry := 0,
    npJoint := some ⟨(⟨0, 0⟩, 0), (⟨1, 0⟩, 0), 0, 0⟩,
    body0 := some (⟨0, 0⟩, 0), body1 := some (⟨1, 0⟩, 0) }

/-- Joint storage holding the materialized joint, notification queues
empty. -/
def materializedJoints : JointStorage Int :=
  ⟨⟨[⟨0, some materializedJoint⟩]⟩, [], []⟩

/-- The two constrained bodies, both asleep. -/
def sleepingBodies : BodyStorage Int :=
  ⟨⟨[⟨0, some { mkRigidBody ⟨0, 0⟩ 0 with active := false }⟩,
     ⟨0, some { mkRigidBody ⟨1, 0⟩ 0 with active := false }⟩]⟩, []⟩

/-- Witness for C5: inserting a third body into the concrete materialized
joint returns the storage unchanged with the error flagged. -/
theorem joint_insert_third_body_rejected_witness :
    materializedJoints.getJoint ⟨0, 0⟩ = some materializedJoint ∧
    JointNpServer.insertRigidBody (fun x : Int => -x) (· + ·)
        materializedJoints sleepingBodies ⟨0, 0⟩ ⟨5, 0⟩
      = (materializedJoints, true) :=
  ⟨rfl, joint_insert_third_body_rejected (fun x : Int => -x) (· + ·)
    materializedJoints sleepingBodies ⟨0, 0⟩ ⟨5, 0⟩ materializedJoint rfl rfl
    rfl⟩

/-- Removing body (0,0) from the concrete materialized joint. -/
def jointRemovalResult : JointStorage Int × BodyStorage Int :=
  JointNpServer.removeRigidBody (fun x : Int => -x) (· + ·)
    materializedJoints sleepingBodies ⟨0, 0⟩ ⟨0, 0⟩

/-- C6: evaluation at the failing input. Removing one body of a
materialized joint empties that slot, destroys the engine constraint
(`np_joint` becomes none) and wakes both bodies — but pushes NO removal
notification: `update_internal_joint` clears `np_joint` before calling
`notify_joint_removed`, which reads `np_joint`, finds it `none` and pushes
nothing, so the engine-facing removal queue stays empty, contradicting the
claim's notification requirement. -/
theorem joint_remove_body_pushes_no_removal_event :
    (jointRemovalResult.1.getJoint ⟨0, 0⟩).map (·.body0) = some none ∧
    (jointRemovalResult.1.getJoint ⟨0, 0⟩).map (fun j => j.body1.map (·.1))
      = some (some ⟨1, 0⟩) ∧
    (jointRemovalResult.1.getJoint ⟨0, 0⟩).map (fun j => j.npJoint.isSome)
      = some false ∧
    (jointRemovalResult.2.getBody ⟨0, 0⟩).map (·.active) = some true ∧
    (jointRemovalResult.2.getBody ⟨1, 0⟩).map (·.active) = some true ∧
    jointRemovalResult.1.removed = [] ∧
    jointRemovalResult.1.inserted = [] :=
  ⟨rfl, rfl, rfl, rfl, rfl, rfl, rfl⟩

/-- ncollide proximity classification. -/
inductive Proximity
  | intersecting
  | withinMargin
  | disjoint
deriving DecidableEq, Repr

/-- A pairwise proximity-state transition reported by the geometrical
world: the two collider keys with previous and new classification. -/
structure ProximityEvent where
  collider1 : StoreKey
  collider2 : StoreKey
  prevStatus : Proximity
  newStatus : Proximity
deriving DecidableEq, Repr

/-- The part of an engine collider `fetch_events` reads: its user data
(owner kind, owner key, entity), written at collider creation. -/
structure NpCollider where
  userData : Option UserData
deriving DecidableEq, Repr

/-- The per-body effect of the event-clearing prologue of `fetch_events`:
an area's pending-event list is emptied, other bodies are untouched. -/
def clearBody {G : Type} (b : Body G) : Body G :=
  match b.bodyData with
  | .area _ => { b with bodyData := .area [] }
  | _ => b

/-- The event-clearing prologue of `WorldNpServer::fetch_events`: every
area's pending-event list is emptied (iterating all stored bodies). -/
def clearAreaEvents {G : Type} (bodies : BodyStorage G) : BodyStorage G :=
  { bodies with storage := ⟨bodies.storage.slots.map (fun sl =>
      { sl with value := sl.value.map clearBody })⟩ }

/-- The classification nest of `fetch_events`: skip when previous and new
status are equal, `some 0` (Enter) when the new status is intersecting,
`some 1` (Exit) when the previous was intersecting, skip otherwise. -/
def classifyTransition (prev new : Proximity) : Option Nat :=
  if prev = new then none
  else
    match new with
    | .intersecting =>
      match prev with
      | .intersecting => none
      | _ => some 0
    | _ =>
      match prev with
      | .intersecting => some 1
      | _ => none

/-- The per-transition body of `fetch_events`: classify, unwrap both
colliders and their user data (`none` models the panics), pick the area
side by the first collider's recorded object type, and append the
Enter/Exit event to the resolved area's queue (silently dropping the event
when the resolved body is not an area). -/
def WorldNpServer.processProximityEvent {G : Type}
    (colliders : Storage NpCollider) (bodies : BodyStorage G)
    (e : ProximityEvent) : Option (BodyStorage G) :=
  match classifyTransition e.prevStatus e.newStatus with
  | none => some bodies
  | some status =>
    match colliders.get e.collider1, colliders.get e.collider2 with
    | some c1, some c2 =>
      match c1.userData, c2.userData with
      | some ud1, some ud2 =>
        let r : StoreKey × StoreKey × Option Nat :=
          match ud1.objectType with
          | .rigidBody => (ud2.storeKey, ud1.storeKey, ud1.entity)
          | .area => (ud1.storeKey, ud2.storeKey, ud2.entity)
        match bodies.getBody r.1 with
        | some area =>
          match area.bodyData with
          | .area evs =>
            let ev := if status = 0 then OverlapEvent.enter r.2.1 r.2.2
                      else OverlapEvent.exit r.2.1 r.2.2
            some (bodies.setBody r.1
              { area with bodyData := .area (evs ++ [ev]) })
          | _ => some bodies
        | none => none
      | _, _ => none
    | _, _ => none

/-- Translation of `WorldNpServer::fetch_events`: clear every area's
pending events, then process the step's proximity transitions in order. -/
def WorldNpServer.fetchEvents {G : Type} (bodies : BodyStorage G)
    (colliders : Storage NpCollider) (events : List ProximityEvent) :
    Option (BodyStorage G) :=
  events.foldlM (fun bs e => WorldNpServer.processProximityEvent colliders bs e)
    (clearAreaEvents bodies)

/-- Follows the spec's words (refinement side of C7): a transition is an
Enter exactly when the new classification is intersecting and the previous
was not, an Exit exactly when the previous was intersecting and the new is
not; anything else produces no event. `some true` is Enter. -/
def specClassify (prev new : Proximity) : Option Bool :=
  if new = .intersecting ∧ prev ≠ .intersecting then some true
  else if prev = .intersecting ∧ new ≠ .intersecting then some false
  else none

/-- Follows the spec's words (refinement side of C7): the event a
transition contributes — exactly one side must be an Area and the other a
Body; the classified event carries the non-area side's handle and entity
and is destined for the area side's queue. -/
def specEventFor (colliders : Storage NpCollider) (e : ProximityEvent) :
    Option (StoreKey × OverlapEvent) :=
  match specClassify e.prevStatus e.newStatus with
  | none => none
  | some isEnter =>
    match (colliders.get e.collider1).bind (·.userData),
          (colliders.get e.collider2).bind (·.userData) with
    | some u1, some u2 =>
      match u1.objectType, u2.objectType with
      | .area, .rigidBody =>
        some (u1.storeKey,
          if isEnter then .enter u2.storeKey u2.entity
          else .exit u2.storeKey u2.entity)
      | .rigidBody, .area =>
        some (u2.storeKey,
          if isEnter then .enter u1.storeKey u1.entity
          else .exit u1.storeKey u1.entity)
      | _, _ => none
    | _, _ => none

/-- Follows the spec's words (refinement side of C7): the exact event list
an area's queue must hold after one translation pass. -/
def specAreaEvents (colliders : Storage NpCollider)
    (events : List ProximityEvent) (k : StoreKey) : List OverlapEvent :=
  (events.filterMap (specEventFor colliders)).filterMap
    (fun p => if p.1 = k then some p.2 else none)

/-- Whether the body stored under a key currently has area data. -/
def bodyIsArea {G : Type} (bodies : BodyStorage G) (k : StoreKey) : Bool :=
  match bodies.getBody k with
  | some b =>
    match b.bodyData with
    | .area _ => true
    | _ => false
  | none => false

/-- Side conditions under which the code's resolution agrees with the
spec's: for each transition that classifies, the collider user data must
not name two areas (spec: mixed pairs only), and each side's recorded
object type must agree with the stored body's kind. -/
def eventOk {G : Type} (bodies : BodyStorage G)
    (colliders : Storage NpCollider) (e : ProximityEvent) : Bool :=
  match classifyTransition e.prevStatus e.newStatus with
  | none => true
  | some _ =>
    match (colliders.get e.collider1).bind (·.userData),
          (colliders.get e.collider2).bind (·.userData) with
    | some u1, some u2 =>
      match u1.objectType, u2.objectType with
      | .rigidBody, .area => bodyIsArea bodies u2.storeKey
      | .rigidBody, .rigidBody => !(bodyIsArea bodies u2.storeKey)
      | .area, .rigidBody => bodyIsArea bodies u1.storeKey
      | .area, .area => false
    | _, _ => true

theorem setValue_get_self {T : Type} {st : Storage T} {k : StoreKey} {w : T}
    (v : T) (h : st.get k = some w) : (st.setValue k v).get k = some v := by
  unfold Storage.get at h
  have hex : ∃ sl, st.slots[k.index]? = some sl ∧ sl.gen = k.generation ∧
      sl.value = some w := by
    split at h
    next sl hsl =>
      by_cases hg : sl.gen = k.generation
      · rw [if_pos hg] at h; exact ⟨sl, hsl, hg, h⟩
      · rw [if_neg hg] at h; exact Option.noConfusion h
    next hsl => exact Option.noConfusion h
  obtain ⟨sl, hsl, hg, hv⟩ := hex
  have hlen : k.index < st.slots.length := by
    by_contra hge
    rw [List.getElem?_eq_none (by omega)] at hsl
    exact Option.noConfusion hsl
  unfold Storage.setValue
  simp only [hsl, hg, hv]
  unfold Storage.get
  simp [List.getElem?_set_self, hlen]

theorem setValue_get_ne {T : Type} {st : Storage T} {k k' : StoreKey} (v : T)
    (h : k' ≠ k) : (st.setValue k v).get k' = st.get k' := by
  unfold Storage.setValue
  split
  next sl hsl =>
    split
    next hg =>
      split
      next w hv =>
        have hlen : k.index < st.slots.length := by
          by_contra hge
          rw [List.getElem?_eq_none (by omega)] at hsl
          exact Option.noConfusion hsl
        unfold Storage.get
        by_cases hi : k'.index = k.index
        · have hgen : k'.generation ≠ k.generation := by
            intro hgeq
            exact h (by cases k; cases k'; simp_all)
          rw [hi, List.getElem?_set_self (h := hlen), hsl]
          have : ¬ sl.gen = k'.generation := by
            intro hc; rw [hg] at hc; exact hgen hc.symm
          simp [this]
        · rw [List.getElem?_set_ne (fun he => hi he.symm)]
      next hv => rfl
    next hg => rfl
  next hsl => rfl

/-- Whether body data is the area variant. -/
def isAreaData : BodyData → Bool
  | .area _ => true
  | _ => false

theorem clearAreaEvents_get {G : Type} (bodies : BodyStorage G)
    (k : StoreKey) :
    (clearAreaEvents bodies).getBody k = (bodies.getBody k).map clearBody := by
  unfold clearAreaEvents BodyStorage.getBody Storage.get
  simp only [List.getElem?_map]
  cases hsl : bodies.storage.slots[k.index]? with
  | none => rfl
  | some sl =>
    dsimp only [Option.map_some]
    by_cases hg : sl.gen = k.generation <;> simp [hg]

theorem bodyIsArea_eq_kindMap {G : Type} (bodies : BodyStorage G)
    (k : StoreKey) :
    bodyIsArea bodies k
      = ((bodies.getBody k).map (fun b => isAreaData b.bodyData)).getD false := by
  unfold bodyIsArea
  cases h : bodies.getBody k with
  | none => rfl
  | some b => cases hb : b.bodyData <;> simp [isAreaData, hb]

/-- Correspondence between the code's classification nest and the spec's
Enter/Exit classification: same skip set; `0` is Enter, `1` is Exit. -/
theorem classify_eq (prev new : Proximity) :
    classifyTransition prev new
      = (specClassify prev new).map (fun b => if b then 0 else 1) := by
  cases prev <;> cases new <;> rfl

/-- The (zero- or one-element) contribution of a single transition to a
given area's queue, per the spec's classification. -/
def specEventList (colliders : Storage NpCollider) (e : ProximityEvent)
    (k : StoreKey) : List OverlapEvent :=
  match specEventFor colliders e with
  | some p => if p.1 = k then [p.2] else []
  | none => []

theorem setBody_get_self {G : Type} {bs : BodyStorage G} {k : StoreKey}
    {w : Body G} (v : Body G) (h : bs.getBody k = some w) :
    (bs.setBody k v).getBody k = some v :=
  setValue_get_self v h

theorem setBody_get_ne {G : Type} {bs : BodyStorage G} {k k' : StoreKey}
    (v : Body G) (h : k' ≠ k) :
    (bs.setBody k v).getBody k' = bs.getBody k' :=
  setValue_get_ne v h

theorem processEvent_step {G : Type} {colliders : Storage NpCollider}
    {bs bs' : BodyStorage G} {e : ProximityEvent}
    (hok : eventOk bs colliders e = true)
    (hrun : WorldNpServer.processProximityEvent colliders bs e = some bs') :
    (∀ k, (bs'.getBody k).map (fun b => isAreaData b.bodyData)
        = (bs.getBody k).map (fun b => isAreaData b.bodyData)) ∧
    (∀ k b q, bs.getBody k = some b → b.bodyData = .area q →
      ∃ b', bs'.getBody k = some b' ∧
        b'.bodyData = .area (q ++ specEventList colliders e k)) := by
  unfold WorldNpServer.processProximityEvent at hrun
  unfold eventOk at hok
  cases hcl : classifyTransition e.prevStatus e.newStatus with
  | none =>
    rw [hcl] at hrun
    dsimp only at hrun
    have hsp : specClassify e.prevStatus e.newStatus = none := by
      have hc := classify_eq e.prevStatus e.newStatus
      rw [hcl] at hc
      cases hs : specClassify e.prevStatus e.newStatus
      · rfl
      · rw [hs] at hc; exact absurd hc (by simp)
    cases Option.some.inj hrun
    refine ⟨fun k => rfl, fun k b q hkb hbd => ⟨b, hkb, ?_⟩⟩
    simp [specEventList, specEventFor, hsp, hbd]
  | some status =>
    rw [hcl] at hrun hok
    dsimp only at hrun hok
    have hc := classify_eq e.prevStatus e.newStatus
    rw [hcl] at hc
    cases hsp : specClassify e.prevStatus e.newStatus with
    | none => rw [hsp] at hc; exact absurd hc (by simp)
    | some isEnter =>
    rw [hsp] at hc
    dsimp only [Option.map] at hc
    have hst : status = if isEnter then 0 else 1 := Option.some.inj hc
    cases hc1 : colliders.get e.collider1 with
    | none =>
      rw [hc1] at hrun
      cases hc2 : colliders.get e.collider2 <;> rw [hc2] at hrun <;>
        dsimp only at hrun <;> exact absurd hrun (by simp)
    | some c1 =>
    rw [hc1] at hrun hok
    cases hc2 : colliders.get e.collider2 with
    | none => rw [hc2] at hrun; dsimp only at hrun; exact absurd hrun (by simp)
    | some c2 =>
    rw [hc2] at hrun hok
    dsimp only at hrun
    simp only [Option.bind] at hok
    cases hud1 : c1.userData with
    | none =>
      rw [hud1] at hrun
      cases hud2 : c2.userData <;> rw [hud2] at hrun <;>
        dsimp only at hrun <;> exact absurd hrun (by simp)
    | some u1 =>
    rw [hud1] at hrun hok
    cases hud2 : c2.userData with
    | none => rw [hud2] at hrun; dsimp only at hrun; exact absurd hrun (by simp)
    | some u2 =>
    rw [hud2] at hrun hok
    dsimp only at hrun hok
    have hsf : specEventFor colliders e
        = (match u1.objectType, u2.objectType with
          | .area, .rigidBody =>
            some (u1.storeKey,
              if isEnter then OverlapEvent.enter u2.storeKey u2.entity
              else OverlapEvent.exit u2.storeKey u2.entity)
          | .rigidBody, .area =>
            some (u2.storeKey,
              if isEnter then OverlapEvent.enter u1.storeKey u1.entity
              else OverlapEvent.exit u1.storeKey u1.entity)
          | _, _ => none) := by
      unfold specEventFor
      rw [hsp, hc1, hc2]
      simp only [Option.bind]
      rw [hud1, hud2]
    have hev : (if status = 0 then OverlapEvent.enter u1.storeKey u1.entity
          else OverlapEvent.exit u1.storeKey u1.entity)
        = (if isEnter then OverlapEvent.enter u1.storeKey u1.entity
          else OverlapEvent.exit u1.storeKey u1.entity) := by
      cases isEnter <;> simp [hst]
    have hev2 : (if status = 0 then OverlapEvent.enter u2.storeKey u2.entity
          else OverlapEvent.exit u2.storeKey u2.entity)
        = (if isEnter then OverlapEvent.enter u2.storeKey u2.entity
          else OverlapEvent.exit u2.storeKey u2.entity) := by
      cases isEnter <;> simp [hst]
    cases ho1 : u1.objectType <;> cases ho2 : u2.objectType
    · -- rigidBody, rigidBody: spec drops; the code must find a non-area
      -- body at the second key and drop too
      rw [ho1, ho2] at hok hsf
      rw [ho1] at hrun
      dsimp only at hrun hok hsf
      cases hgb : bs.getBody u2.storeKey with
      | none => rw [hgb] at hrun; dsimp only at hrun; exact absurd hrun (by simp)
      | some area =>
        rw [hgb] at hrun
        dsimp only at hrun
        cases harea : area.bodyData with
        | area evs =>
          have hba : bodyIsArea bs u2.storeKey = true := by
            unfold bodyIsArea
            rw [hgb]
            dsimp only
            rw [harea]
          rw [hba] at hok
          exact absurd hok (by simp)
        | rigid ctr cs =>
          rw [harea] at hrun
          dsimp only at hrun
          cases Option.some.inj hrun
          refine ⟨fun k => rfl, fun k b q hkb hbd => ⟨b, hkb, ?_⟩⟩
          simp [specEventList, hsf, hbd]
    · -- rigidBody, area: the code pushes into the body at u2's key
      rw [ho1, ho2] at hok hsf
      rw [ho1] at hrun
      dsimp only at hrun hok hsf
      cases hgb : bs.getBody u2.storeKey with
      | none => rw [hgb] at hrun; dsimp only at hrun; exact absurd hrun (by simp)
      | some area =>
        rw [hgb] at hrun
        dsimp only at hrun
        cases harea : area.bodyData with
        | rigid ctr cs =>
          have hba : bodyIsArea bs u2.storeKey = false := by
            unfold bodyIsArea
            rw [hgb]
            dsimp only
            rw [harea]
          rw [hba] at hok
          exact absurd hok (by simp)
        | area evs =>
          rw [harea] at hrun
          dsimp only at hrun
          cases Option.some.inj hrun
          constructor
          · intro k
            by_cases hk : k = u2.storeKey
            · subst hk
              rw [setBody_get_self _ hgb, hgb]
              simp [isAreaData, harea]
            · rw [setBody_get_ne _ hk]
          · intro k b q hkb hbd
            by_cases hk : k = u2.storeKey
            · subst hk
              have hba : b = area := Option.some.inj (hkb.symm.trans hgb)
              subst hba
              have hq : evs = q := by
                have := harea.symm.trans hbd
                exact (BodyData.area.inj this)
              subst hq
              refine ⟨_, setBody_get_self _ hgb, ?_⟩
              simp [specEventList, hsf, hev]
            · have hk2 : ¬ (u2.storeKey = k) := fun hh => hk hh.symm
              refine ⟨b, by rw [setBody_get_ne _ hk]; exact hkb, ?_⟩
              rw [hbd]
              simp [specEventList, hsf, hk2]
    · -- area, rigidBody: the code pushes into the body at u1's key
      rw [ho1, ho2] at hok hsf
      rw [ho1] at hrun
      dsimp only at hrun hok hsf
      cases hgb : bs.getBody u1.storeKey with
      | none => rw [hgb] at hrun; dsimp only at hrun; exact absurd hrun (by simp)
      | some area =>
        rw [hgb] at hrun
        dsimp only at hrun
        cases harea : area.bodyData with
        | rigid ctr cs =>
          have hba : bodyIsArea bs u1.storeKey = false := by
            unfold bodyIsArea
            rw [hgb]
            dsimp only
            rw [harea]
          rw [hba] at hok
          exact absurd hok (by simp)
        | area evs =>
          rw [harea] at hrun
          dsimp only at hrun
          cases Option.some.inj hrun
          constructor
          · intro k
            by_cases hk : k = u1.storeKey
            · subst hk
              rw [setBody_get_self _ hgb, hgb]
              simp [isAreaData, harea]
            · rw [setBody_get_ne _ hk]
          · intro k b q hkb hbd
            by_cases hk : k = u1.storeKey
            · subst hk
              have hba : b = area := Option.some.inj (hkb.symm.trans hgb)
              subst hba
              have hq : evs = q := by
                have := harea.symm.trans hbd
                exact (BodyData.area.inj this)
              subst hq
              refine ⟨_, setBody_get_self _ hgb, ?_⟩
              simp [specEventList, hsf, hev2]
            · have hk2 : ¬ (u1.storeKey = k) := fun hh => hk hh.symm
              refine ⟨b, by rw [setBody_get_ne _ hk]; exact hkb, ?_⟩
              rw [hbd]
              simp [specEventList, hsf, hk2]
    · -- area, area: excluded by the side conditions
      rw [ho1, ho2] at hok
      dsimp only at hok
      exact absurd hok (by simp)

theorem eventOk_congr {G : Type} {bs bs' : BodyStorage G}
    (colliders : Storage NpCollider) (e : ProximityEvent)
    (h : ∀ k, (bs'.getBody k).map (fun b => isAreaData b.bodyData)
        = (bs.getBody k).map (fun b => isAreaData b.bodyData)) :
    eventOk bs' colliders e = eventOk bs colliders e := by
  have hba : ∀ k, bodyIsArea bs' k = bodyIsArea bs k := by
    intro k
    rw [bodyIsArea_eq_kindMap, bodyIsArea_eq_kindMap, h k]
  have hfun : bodyIsArea bs' = bodyIsArea bs := funext hba
  unfold eventOk
  rw [hfun]

theorem processEvents_fold {G : Type} (colliders : Storage NpCollider) :
    ∀ (evs : List ProximityEvent) (bs bs' : BodyStorage G),
      evs.all (eventOk bs colliders) = true →
      evs.foldlM
        (fun b e => WorldNpServer.processProximityEvent colliders b e) bs
        = some bs' →
      (∀ k, (bs'.getBody k).map (fun b => isAreaData b.bodyData)
          = (bs.getBody k).map (fun b => isAreaData b.bodyData)) ∧
      (∀ k b q, bs.getBody k = some b → b.bodyData = .area q →
        ∃ b', bs'.getBody k = some b' ∧
          b'.bodyData = .area (q ++ specAreaEvents colliders evs k)) := by
  intro evs
  induction evs with
  | nil =>
    intro bs bs' hall hrun
    rw [List.foldlM_nil] at hrun
    cases Option.some.inj hrun
    refine ⟨fun k => rfl, fun k b q hkb hbd => ⟨b, hkb, ?_⟩⟩
    simp [specAreaEvents, hbd]
  | cons e evs ih =>
    intro bs bs' hall hrun
    rw [List.all_cons, Bool.and_eq_true] at hall
    obtain ⟨hok, hall'⟩ := hall
    rw [List.foldlM_cons] at hrun
    cases hstep : WorldNpServer.processProximityEvent colliders bs e with
    | none => rw [hstep] at hrun; exact absurd hrun (by simp)
    | some bs1 =>
      rw [hstep] at hrun
      have hrun2 : evs.foldlM
          (fun b e => WorldNpServer.processProximityEvent colliders b e) bs1
          = some bs' := hrun
      have hstep' := processEvent_step hok hstep
      have hall1 : evs.all (eventOk bs1 colliders) = true := by
        rw [List.all_eq_true] at hall' ⊢
        intro x hx
        rw [eventOk_congr colliders x hstep'.1]
        exact hall' x hx
      obtain ⟨hkind, hpush⟩ := ih bs1 bs' hall1 hrun2
      constructor
      · intro k
        rw [hkind k, hstep'.1 k]
      · intro k b q hkb hbd
        obtain ⟨b1, hb1, hb1d⟩ := hstep'.2 k b q hkb hbd
        obtain ⟨b', hb', hb'd⟩ := hpush k b1 _ hb1 hb1d
        refine ⟨b', hb', ?_⟩
        rw [hb'd]
        have hspl : specAreaEvents colliders (e :: evs) k
            = specEventList colliders e k ++ specAreaEvents colliders evs k := by
          unfold specAreaEvents specEventList
          rw [List.filterMap_cons]
          cases hsf : specEventFor colliders e with
          | none => simp
          | some p => by_cases hp : p.1 = k <;> simp [hp]
        rw [hspl, List.append_assoc]

/-- C7: one event-translation pass (`fetch_events`) first clears every
area's pending-event list, then, provided each transition's collider pair
is a mixed Area/Body pair whose recorded kinds agree with the stored
bodies, leaves every area's queue holding exactly the spec's classified
events for it: one Enter per transition that became intersecting, one Exit
per transition that stopped intersecting, nothing for any other transition,
each event carrying the non-area side's handle and entity. -/
theorem fetch_events_translates_transitions {G : Type}
    (bodies bodiesOut : BodyStorage G) (colliders : Storage NpCollider)
    (events : List ProximityEvent)
    (hall : events.all (eventOk (clearAreaEvents bodies) colliders) = true)
    (hrun : WorldNpServer.fetchEvents bodies colliders events
      = some bodiesOut) :
    ∀ k b evs, bodiesOut.getBody k = some b → b.bodyData = .area evs →
      evs = specAreaEvents colliders events k := by
  unfold WorldNpServer.fetchEvents at hrun
  obtain ⟨hkind, hpush⟩ := processEvents_fold colliders events _ _ hall hrun
  intro k b evs hkb hbd
  have h1 := hkind k
  cases hgb : (clearAreaEvents bodies).getBody k with
  | none => rw [hkb, hgb] at h1; exact absurd h1 (by simp)
  | some b0 =>
    rw [hkb, hgb] at h1
    simp only [Option.map] at h1
    have hb0 : isAreaData b0.bodyData = true := by
      have h2 := Option.some.inj h1
      rw [hbd] at h2
      simpa [isAreaData] using h2.symm
    have hq0 : b0.bodyData = .area [] := by
      have hcg := clearAreaEvents_get bodies k
      rw [hgb] at hcg
      cases horig : bodies.getBody k with
      | none => rw [horig] at hcg; exact absurd hcg (by simp)
      | some ob =>
        rw [horig] at hcg
        simp only [Option.map] at hcg
        have hb0e : b0 = clearBody ob := Option.some.inj hcg
        cases hod : ob.bodyData with
        | area l =>
          rw [hb0e]
          unfold clearBody
          rw [hod]
        | rigid c cs =>
          rw [hb0e] at hb0
          unfold clearBody at hb0
          rw [hod] at hb0
          dsimp only at hb0
          rw [hod] at hb0
          exact absurd hb0 (by simp [isAreaData])
    obtain ⟨b', hb', hb'd⟩ := hpush k b0 [] hgb hq0
    have hbb : b = b' := Option.some.inj (hkb.symm.trans hb')
    rw [hbb, hb'd] at hbd
    exact (BodyData.area.inj hbd).symm.trans (by simp)

/-- An area body whose queue still holds a stale event from the previous
step (the pass must clear it). -/
def demoAreaBody : Body Int :=
  { selfKey := some ⟨0, 0⟩, transform := 0, active := true,
    bodyData := .area [.enter ⟨9, 9⟩ none], colliderKey := some ⟨0, 0⟩,
    shapeKey := none, entity := none, materialHandle := 0,
    npCollisionGroups := ⟨[], [], []⟩ }

/-- One area (slot 0) and one rigid body (slot 1). -/
def demoBodies : BodyStorage Int :=
  ⟨⟨[⟨0, some demoAreaBody⟩, ⟨0, some (mkRigidBody ⟨1, 0⟩ 0)⟩]⟩, []⟩

/-- Their colliders: slot 0 belongs to the area, slot 1 to the rigid body
(whose entity is 7). -/
def demoColliders : Storage NpCollider :=
  ⟨[⟨0, some ⟨some ⟨.area, ⟨0, 0⟩, none⟩⟩⟩,
    ⟨0, some ⟨some ⟨.rigidBody, ⟨1, 0⟩, some 7⟩⟩⟩]⟩

/-- One transition: the two colliders became intersecting this step. -/
def demoEvents : List ProximityEvent :=
  [⟨⟨1, 0⟩, ⟨0, 0⟩, .disjoint, .intersecting⟩]

/-- The body table after the translation pass. -/
def demoFetched : BodyStorage Int :=
  (WorldNpServer.fetchEvents demoBodies demoColliders demoEvents).getD
    ⟨⟨[]⟩, []⟩

/-- The area's queue after the pass. -/
def demoQueue : List OverlapEvent :=
  match (demoFetched.getBody ⟨0, 0⟩).map (·.bodyData) with
  | some (BodyData.area evs) => evs
  | _ => []

/-- Witness for C7: on the concrete scenario the pass succeeds, the stale
event is gone, and the area's queue holds exactly the one spec-classified
Enter event carrying the rigid body's handle and entity. -/
theorem fetch_events_translates_transitions_witness :
    demoEvents.all (eventOk (clearAreaEvents demoBodies) demoColliders)
      = true ∧
    WorldNpServer.fetchEvents demoBodies demoColliders demoEvents
      = some demoFetched ∧
    (demoFetched.getBody ⟨0, 0⟩).map (·.bodyData) = some (.area demoQueue) ∧
    demoQueue = specAreaEvents demoColliders demoEvents ⟨0, 0⟩ ∧
    demoQueue = [.enter ⟨1, 0⟩ (some 7)] := by
  refine ⟨by rfl, by rfl, by rfl, ?_, by rfl⟩
  exact fetch_events_translates_transitions demoBodies demoFetched
    demoColliders demoEvents (by rfl) (by rfl) ⟨0, 0⟩
    ((demoFetched.getBody ⟨0, 0⟩).getD demoAreaBody) demoQueue (by rfl)
    (by rfl)
